import Mathlib

/-!
Verification development for the DJVU → CBZ converter (`src/djvu_convert.py`).

The Python source shells out to three external tools (`djvused`, `ddjvu`,
and PIL's re-encoder) and manipulates a filesystem.  The shallow embedding
models each external tool invocation by an environment record describing its
observable behaviour (exit code, produced output text, whether it left the
target file on disk), and models the relevant parts of the filesystem as a
list of the paths that exist.  Python string operations used by the source
(`strip`, `isdigit`, `int`, `split('\n')`, `startswith`, `endswith`,
`replace`, `lower`, `os.path.splitext`, `f"{page:04d}"`, `list.sort`) are
modelled over `List Char` below, faithful to their CPython semantics on the
inputs the program feeds them (ASCII closure is assumed for `isdigit` and
`lower`; CPython's `str.isdigit` also accepts non-ASCII digit codepoints,
for which `int(...)` then raises and the surrounding `except` takes the same
fallback branch, so the observable page count is unchanged).
-/

namespace DjvuCbz

/-- Characters removed by Python `str.strip()`. -/
def isPySpace (c : Char) : Bool :=
  c == ' ' || c == '\t' || c == '\n' || c == '\r' || c == '\x0b' || c == '\x0c'

/-- Python `str.strip()` on a list of characters. -/
def stripChars (l : List Char) : List Char :=
  ((l.dropWhile isPySpace).reverse.dropWhile isPySpace).reverse

/-- Python `str.strip()`. -/
def pyStrip (s : String) : String := ⟨stripChars s.data⟩

/-- Python `str.isdigit()` restricted to ASCII digits. -/
def pyIsDigit (s : String) : Bool :=
  !s.data.isEmpty && s.data.all (fun c => 48 ≤ c.toNat && c.toNat ≤ 57)

/-- Python `int(s)` for a string of ASCII decimal digits. -/
def pyInt (s : String) : Nat :=
  s.data.foldl (fun n c => n * 10 + (c.toNat - 48)) 0

/-- Python `str.split(sep)` for a one-character separator
(`"".split('\n') = ['']`, separators produce empty fields). -/
def splitChar (sep : Char) : List Char → List (List Char)
  | [] => [[]]
  | c :: s =>
    match splitChar sep s, c == sep with
    | r, true => [] :: r
    | [], false => [[c]]
    | h :: t, false => (c :: h) :: t

/-- Python-style lexicographic `<=` on strings (codepoint order),
over lists of characters. -/
def lexLe : List Char → List Char → Bool
  | [], _ => true
  | _ :: _, [] => false
  | a :: as, b :: bs => if a = b then lexLe as bs else decide (a.toNat < b.toNat)

/-- Python string `<=`, the order used by `list.sort()` on filenames. -/
def strLe (a b : String) : Bool := lexLe a.data b.data

/-- Relation form of `strLe` as a proposition, for use with `List.insertionSort`. -/
def strLeP (a b : String) : Prop := strLe a b = true

instance : DecidableRel strLeP := fun a b =>
  inferInstanceAs (Decidable (strLe a b = true))

/-- One scan step per character: replace every occurrence of `pat` in the
input with `rep`, left to right, non-overlapping — the semantics of Python
`str.replace` for a non-empty pattern.  `fuel` bounds the recursion; any
`fuel ≥` the input length is enough when `pat` is non-empty. -/
def replaceFuel (pat rep : List Char) : Nat → List Char → List Char
  | _, [] => []
  | 0, s => s
  | fuel + 1, c :: s =>
    if pat.isPrefixOf (c :: s) then
      rep ++ replaceFuel pat rep fuel ((c :: s).drop pat.length)
    else
      c :: replaceFuel pat rep fuel s

/-- Python `s.replace(pat, rep)` for non-empty `pat`. -/
def pyReplace (s pat rep : String) : String :=
  ⟨replaceFuel pat.data rep.data s.data.length s.data⟩

/-- Decimal digits of `n`, most significant first, via `fuel`-bounded
recursion (`fuel ≥ n + 1` is always enough). -/
def natDigitsAux : Nat → Nat → List Char
  | 0, _ => []
  | fuel + 1, n =>
    if n < 10 then [Nat.digitChar n]
    else natDigitsAux fuel (n / 10) ++ [Nat.digitChar (n % 10)]

/-- Decimal representation of `n` (no leading zeros, `"0"` for zero). -/
def natDigits (n : Nat) : List Char := natDigitsAux (n + 1) n

/-- Python `f"{n:04d}"`: the decimal digits of `n` left-padded with `'0'`
to a width of at least 4. -/
def pad4 (n : Nat) : List Char :=
  List.replicate (4 - (natDigits n).length) '0' ++ natDigits n

/-! ### Basic lemmas about the string machinery -/

theorem charToNat_inj {a b : Char} (h : a.toNat = b.toNat) : a = b := by
  have := congrArg Char.ofNat h
  rwa [Char.ofNat_toNat, Char.ofNat_toNat] at this

theorem lexLe_total : ∀ a b, lexLe a b = true ∨ lexLe b a = true
  | [], _ => Or.inl rfl
  | _ :: _, [] => Or.inr rfl
  | a :: as, b :: bs => by
    by_cases hab : a = b
    · subst hab
      simpa [lexLe] using lexLe_total as bs
    · have hba : b ≠ a := fun h => hab h.symm
      have hne : a.toNat ≠ b.toNat := fun h => hab (charToNat_inj h)
      simp only [lexLe, if_neg hab, if_neg hba, decide_eq_true_eq]
      omega

theorem lexLe_trans : ∀ a b c, lexLe a b = true → lexLe b c = true →
    lexLe a c = true
  | [], _, _, _, _ => rfl
  | _ :: _, [], _, h, _ => by simp [lexLe] at h
  | _ :: _, _ :: _, [], _, h => by simp [lexLe] at h
  | a :: as, b :: bs, c :: cs, h₁, h₂ => by
    by_cases hab : a = b <;> by_cases hbc : b = c
    · subst hab; subst hbc
      simp only [lexLe, if_pos rfl] at h₁ h₂ ⊢
      exact lexLe_trans as bs cs h₁ h₂
    · subst hab
      simpa [lexLe, hbc] using h₂
    · subst hbc
      simpa [lexLe, hab] using h₁
    · simp only [lexLe, if_neg hab, if_neg hbc, decide_eq_true_eq] at h₁ h₂
      have hac : a ≠ c := by
        intro h; subst h
        exact absurd (h₁.trans h₂) (lt_irrefl _)
      simp only [lexLe, if_neg hac, decide_eq_true_eq]
      omega

theorem lexLe_antisymm : ∀ a b, lexLe a b = true → lexLe b a = true → a = b
  | [], [], _, _ => rfl
  | [], _ :: _, _, h => by simp [lexLe] at h
  | _ :: _, [], h, _ => by simp [lexLe] at h
  | a :: as, b :: bs, h₁, h₂ => by
    by_cases hab : a = b
    · subst hab
      simp only [lexLe, if_pos rfl] at h₁ h₂
      rw [lexLe_antisymm as bs h₁ h₂]
    · have hba : b ≠ a := fun h => hab h.symm
      simp only [lexLe, if_neg hab, if_neg hba, decide_eq_true_eq] at h₁ h₂
      omega

instance : IsTotal String strLeP :=
  ⟨fun a b => lexLe_total a.data b.data⟩

instance : IsTrans String strLeP :=
  ⟨fun a b c => lexLe_trans a.data b.data c.data⟩

instance : IsAntisymm String strLeP := by
  refine ⟨fun a b h₁ h₂ => ?_⟩
  cases a; cases b
  exact congrArg String.mk (lexLe_antisymm _ _ h₁ h₂)

/-! ## Page Counter (`get_page_count`, src/djvu_convert.py lines 14–39)

The function runs `djvused input -e n`, and on exception or an unusable
result runs `ddjvu -l input`, and on exception or an unusable result
returns the default 100.  Each external run is modelled by an optional
`(returncode, stdout)` pair; `none` means the `subprocess.run` call raised
(tool missing, spawn failure), which the Python `except` clause absorbs. -/

/-- Observable outcome of one `subprocess.run` call that is consulted for
its exit code and captured standard output. -/
structure ToolOut where
  rc : Int
  stdout : String
deriving DecidableEq

/-- Environment of one `get_page_count` call: the behaviour of the two
external tool invocations.  `none` = the invocation raised an exception. -/
structure CountEnv where
  djvused : Option ToolOut
  ddjvuL : Option ToolOut
deriving DecidableEq

/-- The lines of `ddjvu -l` output counted as pages: fields of
`stdout.split('\n')` whose `strip()` starts with `"Page "`. -/
def countPageLines (s : String) : Nat :=
  ((splitChar '\n' s.data).filter
    (fun l => "Page ".data.isPrefixOf (stripChars l))).length

/-- Continuation of `get_page_count` after the `djvused` attempt produced
nothing (lines 25–39): count `Page `-prefixed lines of a successful
`ddjvu -l`, else return the default 100. -/
def countFallback (env : CountEnv) : Nat :=
  match env.ddjvuL with
  | some t =>
    if t.rc == 0 && countPageLines t.stdout != 0 then countPageLines t.stdout
    else 100
  | none => 100

/-- Model of `get_page_count` (lines 14–39): try `djvused -e n` and trust a
successful exit with all-digit stripped output; otherwise fall back to
`countFallback`. -/
def get_page_count (env : CountEnv) : Nat :=
  match env.djvused with
  | some t =>
    if t.rc == 0 && pyIsDigit (pyStrip t.stdout) then pyInt (pyStrip t.stdout)
    else countFallback env
  | none => countFallback env

/-- The `djvused` attempt yields no usable count: either the call raised,
or it exited non-zero, or its stripped output is not all digits. -/
def djvusedUnusable (env : CountEnv) : Prop :=
  ∀ t, env.djvused = some t → ¬(t.rc = 0 ∧ pyIsDigit (pyStrip t.stdout) = true)

/-- The `ddjvu -l` attempt yields no usable count: either the call raised,
or it exited non-zero, or no line of its output is a page line. -/
def ddjvuLUnusable (env : CountEnv) : Prop :=
  ∀ t, env.ddjvuL = some t → ¬(t.rc = 0 ∧ countPageLines t.stdout ≠ 0)

/-- Boolean form of `djvusedUnusable`. -/
def djvusedBad (env : CountEnv) : Bool :=
  match env.djvused with
  | none => true
  | some t => !(t.rc == 0 && pyIsDigit (pyStrip t.stdout))

/-- Boolean form of `ddjvuLUnusable`. -/
def ddjvuLBad (env : CountEnv) : Bool :=
  match env.ddjvuL with
  | none => true
  | some t => !(t.rc == 0 && countPageLines t.stdout != 0)

theorem djvusedUnusable_iff (env : CountEnv) :
    djvusedBad env = true ↔ djvusedUnusable env := by
  obtain ⟨dj, dd⟩ := env
  cases dj with
  | none => simp [djvusedBad, djvusedUnusable]
  | some t => simp [djvusedBad, djvusedUnusable]; tauto

theorem ddjvuLUnusable_iff (env : CountEnv) :
    ddjvuLBad env = true ↔ ddjvuLUnusable env := by
  obtain ⟨dj, dd⟩ := env
  cases dd with
  | none => simp [ddjvuLBad, ddjvuLUnusable]
  | some t => simp [ddjvuLBad, ddjvuLUnusable]; tauto

instance (env : CountEnv) : Decidable (djvusedUnusable env) :=
  decidable_of_iff _ (djvusedUnusable_iff env)

instance (env : CountEnv) : Decidable (ddjvuLUnusable env) :=
  decidable_of_iff _ (ddjvuLUnusable_iff env)

theorem countFallback_ne_zero : ∀ env : CountEnv, countFallback env ≠ 0 := by
  intro ⟨dj, dd⟩
  cases dd with
  | none => simp [countFallback]
  | some t =>
    unfold countFallback
    show (if (t.rc == 0 && countPageLines t.stdout != 0) = true
        then countPageLines t.stdout else 100) ≠ 0
    by_cases hc : (t.rc == 0 && countPageLines t.stdout != 0) = true
    · rw [if_pos hc]
      simpa using (Bool.and_elim_right hc)
    · rw [if_neg hc]; simp

theorem countFallback_of_unusable :
    ∀ env : CountEnv, ddjvuLUnusable env → countFallback env = 100 := by
  intro ⟨dj, dd⟩ h
  cases dd with
  | none => rfl
  | some t =>
    have ht := h t rfl
    unfold countFallback
    show (if (t.rc == 0 && countPageLines t.stdout != 0) = true
        then countPageLines t.stdout else 100) = 100
    rw [if_neg]
    simpa using ht

/-- Claim C6 (corrected), counterexample: when the `djvused` query exits 0
printing the digit string `"0"`, `get_page_count` returns 0, which is not a
positive integer — refuting "returns a positive integer". -/
theorem get_page_count_not_positive_cex :
    ¬ (0 < get_page_count ⟨some ⟨0, "0"⟩, none⟩) := by decide

/-- Claim C6 (amended): `get_page_count` never fails — it is a total
function of the tool behaviours — and returns a non-negative integer; it can
return 0 only when the script evaluator itself exits successfully reporting
a digit string of value 0, and it returns the fixed default 100 whenever
both external tools fail or raise. -/
theorem get_page_count_amended (env : CountEnv) :
    (get_page_count env = 0 →
      ∃ t, env.djvused = some t ∧ t.rc = 0 ∧
        pyIsDigit (pyStrip t.stdout) = true ∧ pyInt (pyStrip t.stdout) = 0) ∧
    (djvusedUnusable env → ddjvuLUnusable env → get_page_count env = 100) := by
  obtain ⟨dj, dd⟩ := env
  constructor
  · intro h
    cases dj with
    | none =>
      exact absurd h (countFallback_ne_zero ⟨none, dd⟩)
    | some t =>
      replace h :
          (if (t.rc == 0 && pyIsDigit (pyStrip t.stdout)) = true
            then pyInt (pyStrip t.stdout) else countFallback ⟨some t, dd⟩) = 0 := h
      by_cases hc : (t.rc == 0 && pyIsDigit (pyStrip t.stdout)) = true
      · rw [if_pos hc] at h
        have hrc : t.rc = 0 := by simpa using (Bool.and_elim_left hc)
        exact ⟨t, rfl, hrc, Bool.and_elim_right hc, h⟩
      · rw [if_neg hc] at h
        exact absurd h (countFallback_ne_zero ⟨some t, dd⟩)
  · intro h1 h2
    cases dj with
    | none => exact countFallback_of_unusable ⟨none, dd⟩ h2
    | some t =>
      show (if (t.rc == 0 && pyIsDigit (pyStrip t.stdout)) = true
          then pyInt (pyStrip t.stdout) else countFallback ⟨some t, dd⟩) = 100
      rw [if_neg]
      · exact countFallback_of_unusable ⟨some t, dd⟩ h2
      · simpa using h1 t rfl

/-- Claim C6 witness: with both tool invocations raising, the count is the
default 100. -/
theorem get_page_count_amended_witness :
    get_page_count ⟨none, none⟩ = 100 :=
  (get_page_count_amended ⟨none, none⟩).2 (by decide) (by decide)

/-- Claim C7 (confirmed): the fallback chain of `get_page_count` is
ordered.  A successful, numeric `djvused` query is returned as is; the
`ddjvu -l` page-line count is used only when the `djvused` attempt yields
nothing usable; the default 100 is returned only when both attempts yield
nothing usable. -/
theorem get_page_count_fallback_chain (env : CountEnv) :
    (∀ t, env.djvused = some t → t.rc = 0 → pyIsDigit (pyStrip t.stdout) = true →
      get_page_count env = pyInt (pyStrip t.stdout)) ∧
    (djvusedUnusable env →
      ∀ t, env.ddjvuL = some t → t.rc = 0 → countPageLines t.stdout ≠ 0 →
        get_page_count env = countPageLines t.stdout) ∧
    (djvusedUnusable env → ddjvuLUnusable env → get_page_count env = 100) := by
  obtain ⟨dj, dd⟩ := env
  refine ⟨?_, ?_, ?_⟩
  · intro t ht hrc hdig
    cases dj with
    | none => exact absurd ht (by simp)
    | some u =>
      obtain rfl : u = t := by simpa using ht
      show (if (u.rc == 0 && pyIsDigit (pyStrip u.stdout)) = true
          then pyInt (pyStrip u.stdout) else countFallback ⟨some u, dd⟩)
          = pyInt (pyStrip u.stdout)
      rw [if_pos]
      simp [hrc, hdig]
  · intro h1 t ht hrc hn
    have hfb : countFallback ⟨dj, dd⟩ = countPageLines t.stdout := by
      cases dd with
      | none => exact absurd ht (by simp)
      | some u =>
        obtain rfl : u = t := by simpa using ht
        show (if (u.rc == 0 && countPageLines u.stdout != 0) = true
            then countPageLines u.stdout else 100) = countPageLines u.stdout
        rw [if_pos]
        simp [hrc, hn]
    cases dj with
    | none => exact hfb
    | some u =>
      show (if (u.rc == 0 && pyIsDigit (pyStrip u.stdout)) = true
          then pyInt (pyStrip u.stdout) else countFallback ⟨some u, dd⟩)
          = countPageLines t.stdout
      rw [if_neg]
      · exact hfb
      · simpa using h1 u rfl
  · intro h1 h2
    cases dj with
    | none => exact countFallback_of_unusable ⟨none, dd⟩ h2
    | some t =>
      show (if (t.rc == 0 && pyIsDigit (pyStrip t.stdout)) = true
          then pyInt (pyStrip t.stdout) else countFallback ⟨some t, dd⟩) = 100
      rw [if_neg]
      · exact countFallback_of_unusable ⟨some t, dd⟩ h2
      · simpa using h1 t rfl

/-- Claim C7 witness: a successful numeric `djvused` answer `" 7 "` wins
even though the `ddjvu -l` fallback would report 1 page. -/
theorem get_page_count_fallback_chain_witness :
    get_page_count ⟨some ⟨0, " 7 "⟩, some ⟨0, "Page 1"⟩⟩ = 7 :=
  ((get_page_count_fallback_chain ⟨some ⟨0, " 7 "⟩, some ⟨0, "Page 1"⟩⟩).1
    ⟨0, " 7 "⟩ rfl rfl (by decide)).trans (by decide)

/-! ## Page Extractor (`extract_page`, src/djvu_convert.py lines 41–84)

`extract_page` invokes `ddjvu -format=png` at the requested output path,
accepts on exit 0 *and* the file existing, else invokes
`ddjvu -format=tiff` at the sibling path `output_file.replace(".png",
".tiff")`, and on exit 0 with the TIFF present re-encodes it to PNG with
PIL and deletes the TIFF.

Each `ddjvu` run is modelled by its exit code `rc` and whether it left its
target file on disk (`creates`) — the two are independent, since ddjvu may
exit 0 without producing output or write partial output and exit non-zero.
The filesystem is the list of paths that exist (paths are scratch-relative:
the `temp_dir` prefix common to all paths the function touches is dropped,
which is faithful because `tempfile.mkdtemp()` paths contain no `".png"`
occurrence that `str.replace` could rewrite).  The PIL re-encode and
`os.remove` steps are library calls on a file the tool just produced and
are modelled as succeeding; a raise there would be absorbed by the
function's `except` clause, returning `False`. -/

/-- One `ddjvu` rendering invocation: exit code, and whether its target
file exists on disk after the run. -/
structure ToolRun where
  rc : Int
  creates : Bool
deriving DecidableEq

/-- Environment of one `extract_page` call: the behaviour of the PNG
attempt (line 56) and of the TIFF fallback attempt (line 72). -/
structure ExtractEnv where
  runPng : ToolRun
  runTiff : ToolRun
deriving DecidableEq

/-- Model of `os.path.exists` over the modelled filesystem. -/
def pathExists (p : String) (fs : List String) : Bool := fs.contains p

/-- The TIFF sibling path `output_file.replace(".png", ".tiff")`
(lines 69, 73, 75). -/
def tiffSibling (out : String) : String := pyReplace out ".png" ".tiff"

/-- Filesystem after the first `ddjvu` run (line 56): the PNG target is
present iff the tool wrote it (or it already existed). -/
def fsAfterPng (e : ExtractEnv) (out : String) (fs : List String) :
    List String :=
  if e.runPng.creates then out :: fs else fs

/-- Filesystem after the second `ddjvu` run (line 72). -/
def fsAfterTiff (e : ExtractEnv) (out : String) (fs : List String) :
    List String :=
  if e.runTiff.creates then tiffSibling out :: fsAfterPng e out fs
  else fsAfterPng e out fs

/-- Model of `extract_page` (lines 41–84), returning the Python result together
with the filesystem after the call.  Branch 1 = line 57, branch 2 =
lines 73–79 (PIL writes `out`, `os.remove` deletes the TIFF), else
line 81. -/
def extract_page (e : ExtractEnv) (out : String) (fs : List String) :
    Bool × List String :=
  if e.runPng.rc == 0 && pathExists out (fsAfterPng e out fs) then
    (true, fsAfterPng e out fs)
  else if e.runTiff.rc == 0 &&
      pathExists (tiffSibling out) (fsAfterTiff e out fs) then
    (true, (out :: fsAfterTiff e out fs).filter (fun p => p != tiffSibling out))
  else
    (false, fsAfterTiff e out fs)

theorem pathExists_iff (p : String) (fs : List String) :
    pathExists p fs = true ↔ p ∈ fs := by
  simp [pathExists, List.contains]

theorem pathExists_eq_false (p : String) (fs : List String) (h : p ∉ fs) :
    pathExists p fs = false := by
  rw [← Bool.not_eq_true, pathExists_iff]
  exact h

/-- Claim C4 (confirmed): `extract_page` reports success only if the
requested output file exists afterwards, and a run that exits 0 without
producing its file is not accepted: when neither invocation leaves a file
behind (and neither target pre-exists in the fresh scratch directory) the
result is failure, regardless of both exit codes. -/
theorem extract_page_success_needs_file (e : ExtractEnv) (out : String)
    (fs : List String)
    (hne : tiffSibling out ≠ out)
    (hout : out ∉ fs) (htf : tiffSibling out ∉ fs) :
    ((extract_page e out fs).1 = true → out ∈ (extract_page e out fs).2) ∧
    (e.runPng.creates = false → e.runTiff.creates = false →
      (extract_page e out fs).1 = false) := by
  constructor
  · intro hres
    unfold extract_page at hres ⊢
    by_cases h1 : (e.runPng.rc == 0 &&
        pathExists out (fsAfterPng e out fs)) = true
    · rw [if_pos h1] at hres ⊢
      exact (pathExists_iff _ _).1 (Bool.and_elim_right h1)
    · rw [if_neg h1] at hres ⊢
      by_cases h2 : (e.runTiff.rc == 0 &&
          pathExists (tiffSibling out) (fsAfterTiff e out fs)) = true
      · rw [if_pos h2]
        refine List.mem_filter.2 ⟨List.mem_cons_self _ _, ?_⟩
        simpa using fun h => hne h.symm
      · rw [if_neg h2] at hres
        simp at hres
  · intro hp ht
    have hfs1 : fsAfterPng e out fs = fs := by simp [fsAfterPng, hp]
    have hfs2 : fsAfterTiff e out fs = fs := by simp [fsAfterTiff, ht, hfs1]
    unfold extract_page
    rw [hfs1, hfs2, pathExists_eq_false out fs hout,
      pathExists_eq_false (tiffSibling out) fs htf]
    simp

/-- Claim C4 witness: both runs exit 0 but neither produces a file, so the
call fails. -/
theorem extract_page_success_needs_file_witness :
    (extract_page ⟨⟨0, false⟩, ⟨0, false⟩⟩ "page_0001.png" []).1 = false :=
  (extract_page_success_needs_file ⟨⟨0, false⟩, ⟨0, false⟩⟩ "page_0001.png" []
    (by decide) (by decide) (by decide)).2 rfl rfl

/-- Claim C5 (confirmed): when the primary PNG attempt fails (non-zero
exit, or no file produced into the fresh scratch area) and the TIFF
fallback succeeds, `extract_page` returns success, the page file exists at
the requested PNG path, the TIFF intermediate does not remain, and no file
other than the requested PNG path was added to the filesystem. -/
theorem extract_page_fallback_cleanup (e : ExtractEnv) (out : String)
    (fs : List String)
    (hne : tiffSibling out ≠ out)
    (hout : out ∉ fs) (htf : tiffSibling out ∉ fs)
    (hfail : ¬(e.runPng.rc = 0 ∧ e.runPng.creates = true))
    (hrc : e.runTiff.rc = 0) (hcr : e.runTiff.creates = true) :
    (extract_page e out fs).1 = true ∧
    out ∈ (extract_page e out fs).2 ∧
    tiffSibling out ∉ (extract_page e out fs).2 ∧
    ∀ p ∈ (extract_page e out fs).2, p = out ∨ p ∈ fs := by
  have h1 : (e.runPng.rc == 0 && pathExists out (fsAfterPng e out fs))
      = false := by
    by_cases hp : e.runPng.creates = true
    · have : ¬(e.runPng.rc = 0) := fun h => hfail ⟨h, hp⟩
      simp [this]
    · have hfs1 : fsAfterPng e out fs = fs := by simp [fsAfterPng, hp]
      rw [hfs1, pathExists_eq_false out fs hout]
      simp
  have hfs2 : fsAfterTiff e out fs = tiffSibling out :: fsAfterPng e out fs := by
    simp [fsAfterTiff, hcr]
  have h2 : (e.runTiff.rc == 0 &&
      pathExists (tiffSibling out) (fsAfterTiff e out fs)) = true := by
    rw [hfs2]
    simp [hrc, pathExists]
  have hres : extract_page e out fs =
      (true, (out :: fsAfterTiff e out fs).filter
        (fun p => p != tiffSibling out)) := by
    unfold extract_page
    rw [h1, h2]
    simp
  rw [hres]
  refine ⟨rfl, ?_, ?_, ?_⟩
  · refine List.mem_filter.2 ⟨List.mem_cons_self _ _, ?_⟩
    simpa using fun h => hne h.symm
  · intro hmem
    have := (List.mem_filter.1 hmem).2
    simp at this
  · intro p hp
    have hmem := (List.mem_filter.1 hp).1
    have hnetf := (List.mem_filter.1 hp).2
    rcases List.mem_cons.1 hmem with h | h
    · exact Or.inl h
    · rw [hfs2] at h
      rcases List.mem_cons.1 h with h' | h'
      · exact absurd h' (by simpa using hnetf)
      · unfold fsAfterPng at h'
        by_cases hc : e.runPng.creates = true
        · rw [if_pos hc] at h'
          rcases List.mem_cons.1 h' with h'' | h''
          · exact Or.inl h''
          · exact Or.inr h''
        · rw [if_neg hc] at h'
          exact Or.inr h'

/-- Claim C5 witness: PNG attempt exits 1 with no file, TIFF fallback
succeeds; the call succeeds leaving exactly the PNG. -/
theorem extract_page_fallback_cleanup_witness :
    (extract_page ⟨⟨1, false⟩, ⟨0, true⟩⟩ "page_0001.png" []).1 = true ∧
    "page_0001.png" ∈ (extract_page ⟨⟨1, false⟩, ⟨0, true⟩⟩ "page_0001.png" []).2 ∧
    tiffSibling "page_0001.png" ∉
      (extract_page ⟨⟨1, false⟩, ⟨0, true⟩⟩ "page_0001.png" []).2 ∧
    ∀ p ∈ (extract_page ⟨⟨1, false⟩, ⟨0, true⟩⟩ "page_0001.png" []).2,
      p = "page_0001.png" ∨ p ∈ ([] : List String) :=
  extract_page_fallback_cleanup ⟨⟨1, false⟩, ⟨0, true⟩⟩ "page_0001.png" []
    (by decide) (by decide) (by decide) (by decide) rfl rfl

/-! ## Scratch-area page file naming (line 110)

`convert_djvu_to_cbz` names page `i`'s image `f"page_{i:04d}.png"` inside
the scratch directory; the TIFF intermediate that `extract_page` may use
for it is the `.tiff` sibling of that name. -/

/-- Characters of `f"page_{i:04d}.png"`. -/
def pageNameL (i : Nat) : List Char := "page_".data ++ pad4 i ++ ".png".data

/-- The page filename `f"page_{i:04d}.png"` (line 110). -/
def pageName (i : Nat) : String := ⟨pageNameL i⟩

/-- Characters of the TIFF sibling `f"page_{i:04d}.tiff"`. -/
def tiffNameL (i : Nat) : List Char := "page_".data ++ pad4 i ++ ".tiff".data

/-- The TIFF sibling filename of page `i`. -/
def tiffName (i : Nat) : String := ⟨tiffNameL i⟩

theorem natDigitsAux_congr : ∀ f1 f2 n : Nat, n < f1 → n < f2 →
    natDigitsAux f1 n = natDigitsAux f2 n := by
  intro f1
  induction f1 with
  | zero => intro f2 n h1 _; omega
  | succ f ih =>
    intro f2 n h1 h2
    cases f2 with
    | zero => omega
    | succ g =>
      by_cases hn : n < 10
      · simp [natDigitsAux, hn]
      · simp only [natDigitsAux, if_neg hn]
        rw [ih g (n / 10) (by omega) (by omega)]

theorem natDigits_unfold (n : Nat) :
    natDigits n = if n < 10 then [Nat.digitChar n]
      else natDigits (n / 10) ++ [Nat.digitChar (n % 10)] := by
  have hstep : ∀ m : Nat, natDigitsAux (m + 1) m =
      if m < 10 then [Nat.digitChar m]
      else natDigitsAux m (m / 10) ++ [Nat.digitChar (m % 10)] :=
    fun _ => rfl
  by_cases hn : n < 10
  · rw [if_pos hn]
    unfold natDigits
    rw [hstep n, if_pos hn]
  · rw [if_neg hn]
    unfold natDigits
    rw [hstep n, if_neg hn]
    congr 1
    exact natDigitsAux_congr n (n / 10 + 1) (n / 10) (by omega) (by omega)

/-- Character-list version of Python `int` on digit strings. -/
def pyIntL (l : List Char) : Nat :=
  l.foldl (fun n c => n * 10 + (c.toNat - 48)) 0

theorem digitChar_toNat : ∀ d, d < 10 → (Nat.digitChar d).toNat = 48 + d := by
  decide

theorem pyIntL_natDigits (n : Nat) : pyIntL (natDigits n) = n := by
  induction n using Nat.strong_induction_on with
  | _ n ih =>
    rw [natDigits_unfold]
    by_cases hn : n < 10
    · rw [if_pos hn]
      show 0 * 10 + ((Nat.digitChar n).toNat - 48) = n
      rw [digitChar_toNat n hn]
      omega
    · rw [if_neg hn]
      unfold pyIntL
      rw [List.foldl_append]
      show pyIntL (natDigits (n / 10)) * 10 +
        ((Nat.digitChar (n % 10)).toNat - 48) = n
      rw [ih (n / 10) (by omega), digitChar_toNat (n % 10) (by omega)]
      omega

theorem pyIntL_pad4 (n : Nat) : pyIntL (pad4 n) = n := by
  unfold pad4 pyIntL
  rw [List.foldl_append]
  have hz : ∀ k, List.foldl (fun n c => n * 10 + (c.toNat - 48)) 0
      (List.replicate k '0') = 0 := by
    intro k
    induction k with
    | zero => rfl
    | succ m ihm =>
      rw [List.replicate_succ, List.foldl_cons]
      simpa using ihm
  rw [hz]
  exact pyIntL_natDigits n

theorem pad4_inj {a b : Nat} (h : pad4 a = pad4 b) : a = b := by
  have ha := pyIntL_pad4 a
  rw [h, pyIntL_pad4 b] at ha
  omega

theorem natDigits_mem (n : Nat) :
    ∀ c ∈ natDigits n, ∃ d, d < 10 ∧ c = Nat.digitChar d := by
  induction n using Nat.strong_induction_on with
  | _ n ih =>
    rw [natDigits_unfold]
    by_cases hn : n < 10
    · rw [if_pos hn]
      intro c hc
      simp at hc
      exact ⟨n, hn, hc⟩
    · rw [if_neg hn]
      intro c hc
      rcases List.mem_append.1 hc with h | h
      · exact ih (n / 10) (by omega) c h
      · simp at h
        exact ⟨n % 10, by omega, h⟩

theorem pad4_mem (n : Nat) :
    ∀ c ∈ pad4 n, ∃ d, d < 10 ∧ c = Nat.digitChar d := by
  intro c hc
  rcases List.mem_append.1 hc with h | h
  · rw [List.eq_of_mem_replicate h]
    exact ⟨0, by omega, rfl⟩
  · exact natDigits_mem n c h

theorem pageNameL_getLast (i : Nat) : (pageNameL i).getLast? = some 'g' := by
  unfold pageNameL
  rw [List.getLast?_append]
  rfl

theorem tiffNameL_getLast (i : Nat) : (tiffNameL i).getLast? = some 'f' := by
  unfold tiffNameL
  rw [List.getLast?_append]
  rfl

theorem pageName_inj {i j : Nat} (h : pageName i = pageName j) : i = j := by
  have hd : pageNameL i = pageNameL j := congrArg String.data h
  unfold pageNameL at hd
  have h2 := List.append_cancel_left (List.append_cancel_right hd)
  exact pad4_inj h2

theorem tiffName_inj {i j : Nat} (h : tiffName i = tiffName j) : i = j := by
  have hd : tiffNameL i = tiffNameL j := congrArg String.data h
  unfold tiffNameL at hd
  have h2 := List.append_cancel_left (List.append_cancel_right hd)
  exact pad4_inj h2

theorem pageName_ne_tiffName (i j : Nat) : pageName i ≠ tiffName j := by
  intro h
  have hd : pageNameL i = tiffNameL j := congrArg String.data h
  have h1 := pageNameL_getLast i
  rw [hd, tiffNameL_getLast j] at h1
  exact absurd h1 (by decide)

/-! ### Computing `str.replace(".png", ".tiff")` on page names -/

theorem digitChar_ne_dot : ∀ d, d < 10 → Nat.digitChar d ≠ '.' := by decide

theorem replaceFuel_nil (pat rep : List Char) (f : Nat) :
    replaceFuel pat rep f [] = [] := by
  cases f <;> rfl

theorem replaceFuel_dotfree (rep : List Char) :
    ∀ s : List Char, (∀ c ∈ s, c ≠ '.') → ∀ fuel, s.length + 4 ≤ fuel →
      replaceFuel ".png".data rep fuel (s ++ ".png".data) = s ++ rep := by
  intro s
  induction s with
  | nil =>
    intro _ fuel hf
    cases fuel with
    | zero => omega
    | succ f =>
      have h1 : replaceFuel ".png".data rep (f + 1) ([] ++ ".png".data) =
          rep ++ replaceFuel ".png".data rep f [] := rfl
      rw [h1, replaceFuel_nil]
      simp
  | cons c s ih =>
    intro hdot fuel hf
    cases fuel with
    | zero => omega
    | succ f =>
      have hc : c ≠ '.' := hdot c (List.mem_cons_self c s)
      have hpre : (".png".data.isPrefixOf (c :: (s ++ ".png".data))) = false := by
        show (('.' :: "png".data).isPrefixOf (c :: (s ++ ".png".data))) = false
        rw [List.isPrefixOf_cons₂]
        have : (('.' : Char) == c) = false := by
          simp
          exact fun h => hc h.symm
        rw [this]
        rfl
      have hstep : replaceFuel ".png".data rep (f + 1) ((c :: s) ++ ".png".data) =
          if ".png".data.isPrefixOf (c :: (s ++ ".png".data)) then
            rep ++ replaceFuel ".png".data rep f
              ((c :: (s ++ ".png".data)).drop ".png".data.length)
          else
            c :: replaceFuel ".png".data rep f (s ++ ".png".data) := rfl
      rw [hstep, hpre]
      show c :: replaceFuel ".png".data rep f (s ++ ".png".data) = (c :: s) ++ rep
      rw [ih (fun d hd => hdot d (List.mem_cons_of_mem c hd)) f (by
        simp at hf ⊢
        omega)]
      rfl

theorem pad4_ne_dot (i : Nat) : ∀ c ∈ "page_".data ++ pad4 i, c ≠ '.' := by
  intro c hc
  rcases List.mem_append.1 hc with h | h
  · have hp : ("page_".data : List Char) = ['p', 'a', 'g', 'e', '_'] := rfl
    rw [hp] at h
    simp at h
    rcases h with rfl | rfl | rfl | rfl | rfl <;> decide
  · obtain ⟨d, hd, rfl⟩ := pad4_mem i c h
    exact digitChar_ne_dot d hd

/-- On a page name, the TIFF sibling computed by
`output_file.replace(".png", ".tiff")` is exactly `tiffName`. -/
theorem tiffSibling_pageName (i : Nat) :
    tiffSibling (pageName i) = tiffName i := by
  unfold tiffSibling pyReplace pageName tiffName
  congr 1
  show replaceFuel ".png".data ".tiff".data (pageNameL i).length (pageNameL i)
    = tiffNameL i
  have hshape : pageNameL i = ("page_".data ++ pad4 i) ++ ".png".data := rfl
  have hlen : (pageNameL i).length = ("page_".data ++ pad4 i).length + 4 := by
    rw [hshape, List.length_append]
    rfl
  rw [hlen, hshape,
    replaceFuel_dotfree ".tiff".data ("page_".data ++ pad4 i) (pad4_ne_dot i)
      (("page_".data ++ pad4 i).length + 4) (Nat.le_refl _)]
  rfl

/-! ### Per-page characterization under clean tool behaviour -/

/-- Whether `extract_page` succeeds when run against a fresh scratch
directory: either invocation exited 0 and left its file. -/
def cleanSuccess (e : ExtractEnv) : Bool :=
  (e.runPng.rc == 0 && e.runPng.creates) || (e.runTiff.rc == 0 && e.runTiff.creates)

/-- The files one `extract_page` call for page `i` leaves in a fresh
scratch directory, under clean primary-tool behaviour: its PNG on success,
a stray TIFF if the fallback run wrote one but exited non-zero, nothing
otherwise. -/
def depositsFor (e : ExtractEnv) (i : Nat) : List String :=
  if cleanSuccess e then [pageName i]
  else if e.runTiff.creates then [tiffName i] else []

theorem depositsFor_subset (e : ExtractEnv) (i : Nat) :
    ∀ p ∈ depositsFor e i, p = pageName i ∨ p = tiffName i := by
  intro p hp
  unfold depositsFor at hp
  by_cases h1 : cleanSuccess e = true
  · rw [if_pos h1] at hp
    simp at hp
    exact Or.inl hp
  · rw [if_neg h1] at hp
    by_cases h2 : e.runTiff.creates = true
    · rw [if_pos h2] at hp
      simp at hp
      exact Or.inr hp
    · rw [if_neg h2] at hp
      simp at hp

/-- Characterization of `extract_page` on page `i`'s fresh scratch paths,
assuming the primary run does not write its file when exiting non-zero. -/
theorem extract_page_clean (e : ExtractEnv) (i : Nat) (fs : List String)
    (hcl : e.runPng.creates = true → e.runPng.rc = 0)
    (hout : pageName i ∉ fs) (htf : tiffName i ∉ fs) :
    extract_page e (pageName i) fs = (cleanSuccess e, depositsFor e i ++ fs) := by
  have hne : tiffName i ≠ pageName i := fun h => pageName_ne_tiffName i i h.symm
  by_cases hc : e.runPng.creates = true
  · have hrc : e.runPng.rc = 0 := hcl hc
    have hfs1 : fsAfterPng e (pageName i) fs = pageName i :: fs := by
      simp [fsAfterPng, hc]
    have hcond1 : (e.runPng.rc == 0 &&
        pathExists (pageName i) (fsAfterPng e (pageName i) fs)) = true := by
      rw [hfs1, hrc, (pathExists_iff _ _).2 (List.mem_cons_self _ _)]
      rfl
    have hcs : cleanSuccess e = true := by
      simp [cleanSuccess, hrc, hc]
    unfold extract_page
    rw [if_pos hcond1, hfs1, hcs]
    simp [depositsFor, hcs]
  · have hcf : e.runPng.creates = false := by
      rwa [Bool.not_eq_true] at hc
    have hfs1 : fsAfterPng e (pageName i) fs = fs := by
      simp [fsAfterPng, hcf]
    have hcond1 : (e.runPng.rc == 0 &&
        pathExists (pageName i) (fsAfterPng e (pageName i) fs)) = false := by
      rw [hfs1, pathExists_eq_false _ _ hout]
      simp
    by_cases ht : e.runTiff.creates = true
    · have hfs2 : fsAfterTiff e (pageName i) fs = tiffName i :: fs := by
        simp [fsAfterTiff, ht, hfs1, tiffSibling_pageName]
      by_cases hrt : e.runTiff.rc = 0
      · have hcond2 : (e.runTiff.rc == 0 && pathExists
            (tiffSibling (pageName i)) (fsAfterTiff e (pageName i) fs)) = true := by
          rw [hfs2, hrt, tiffSibling_pageName,
            (pathExists_iff _ _).2 (List.mem_cons_self _ _)]
          rfl
        have hcs : cleanSuccess e = true := by
          simp [cleanSuccess, hrt, ht]
        unfold extract_page
        rw [hcond1, if_neg Bool.false_ne_true, if_pos hcond2,
          hfs2, hcs, tiffSibling_pageName]
        have hfilter : (pageName i :: tiffName i :: fs).filter
            (fun p => p != tiffName i) = pageName i :: fs := by
          rw [List.filter_cons_of_pos (by simpa using fun h => hne h.symm),
            List.filter_cons_of_neg (by simp)]
          congr 1
          rw [List.filter_eq_self]
          intro a ha
          have hne2 : a ≠ tiffName i := by
            intro h
            rw [h] at ha
            exact htf ha
          simpa using hne2
        rw [hfilter]
        simp [depositsFor, hcs]
      · have hrtf : (e.runTiff.rc == 0) = false := by
          simpa using hrt
        have hcond2 : (e.runTiff.rc == 0 && pathExists
            (tiffSibling (pageName i)) (fsAfterTiff e (pageName i) fs)) = false := by
          rw [hrtf]
          rfl
        have hcs : cleanSuccess e = false := by
          simp [cleanSuccess, hcf, hrtf]
        unfold extract_page
        rw [hcond1, if_neg Bool.false_ne_true, hcond2,
          if_neg Bool.false_ne_true, hfs2, hcs]
        simp [depositsFor, hcs, ht]
    · have htf2 : e.runTiff.creates = false := by
        rwa [Bool.not_eq_true] at ht
      have hfs2 : fsAfterTiff e (pageName i) fs = fs := by
        simp [fsAfterTiff, htf2, hfs1]
      have hcond2 : (e.runTiff.rc == 0 && pathExists
          (tiffSibling (pageName i)) (fsAfterTiff e (pageName i) fs)) = false := by
        rw [hfs2, tiffSibling_pageName, pathExists_eq_false _ _ htf]
        simp
      have hcs : cleanSuccess e = false := by
        simp [cleanSuccess, hcf, htf2]
      unfold extract_page
      rw [hcond1, if_neg Bool.false_ne_true, hcond2,
        if_neg Bool.false_ne_true, hfs2, hcs]
      simp [depositsFor, hcs, htf2]

/-! ## Document Converter (`convert_djvu_to_cbz`, lines 86–143) -/

/-- The page-extraction loop (lines 107–116) over a list of page indices:
returns the filesystem of the scratch directory after all `extract_page`
calls, together with the final `successful_pages` counter. -/
def extractPages (penv : Nat → ExtractEnv) :
    List Nat → List String → List String × Nat
  | [], fs => (fs, 0)
  | i :: rest, fs =>
    match extract_page (penv i) (pageName i) fs with
    | (ok, fs1) =>
      match extractPages penv rest fs1 with
      | (fs2, k) => (fs2, (if ok then 1 else 0) + k)

/-- Characterization of the extraction loop over distinct page indices and
a scratch area fresh for all of them, assuming clean primary-tool
behaviour: the scratch area ends up holding exactly the per-page deposits,
and the success counter counts the `cleanSuccess` pages. -/
theorem extractPages_clean (penv : Nat → ExtractEnv) :
    ∀ (ps : List Nat) (fs : List String),
      (∀ i ∈ ps, (penv i).runPng.creates = true → (penv i).runPng.rc = 0) →
      (∀ i ∈ ps, pageName i ∉ fs ∧ tiffName i ∉ fs) →
      ps.Nodup →
      extractPages penv ps fs =
        ((ps.reverse.map (fun i => depositsFor (penv i) i)).flatten ++ fs,
          (ps.filter (fun i => cleanSuccess (penv i))).length) := by
  intro ps
  induction ps with
  | nil =>
    intro fs _ _ _
    simp [extractPages]
  | cons i rest ih =>
    intro fs hcl hfresh hnd
    have hfr := hfresh i (List.mem_cons_self i rest)
    have hstep := extract_page_clean (penv i) i fs
      (hcl i (List.mem_cons_self i rest)) hfr.1 hfr.2
    have hunfold : extractPages penv (i :: rest) fs =
        match extract_page (penv i) (pageName i) fs with
        | (ok, fs1) =>
          match extractPages penv rest fs1 with
          | (fs2, k) => (fs2, (if ok then 1 else 0) + k) := rfl
    rw [hunfold, hstep]
    show (match extractPages penv rest (depositsFor (penv i) i ++ fs) with
      | (fs2, k) =>
        (fs2, (if cleanSuccess (penv i) = true then 1 else 0) + k)) = _
    have hfresh2 : ∀ j ∈ rest, pageName j ∉ depositsFor (penv i) i ++ fs ∧
        tiffName j ∉ depositsFor (penv i) i ++ fs := by
      intro j hj
      have hij : j ≠ i := by
        intro h
        rw [h] at hj
        exact (List.nodup_cons.1 hnd).1 hj
      have hfj := hfresh j (List.mem_cons_of_mem i hj)
      constructor
      · intro hmem
        rcases List.mem_append.1 hmem with h | h
        · rcases depositsFor_subset _ _ _ h with h2 | h2
          · exact hij (pageName_inj h2)
          · exact pageName_ne_tiffName j i h2
        · exact hfj.1 h
      · intro hmem
        rcases List.mem_append.1 hmem with h | h
        · rcases depositsFor_subset _ _ _ h with h2 | h2
          · exact pageName_ne_tiffName i j h2.symm
          · exact hij (tiffName_inj h2)
        · exact hfj.2 h
    rw [ih (depositsFor (penv i) i ++ fs)
      (fun j hj => hcl j (List.mem_cons_of_mem i hj)) hfresh2
      (List.nodup_cons.1 hnd).2]
    show ((rest.reverse.map (fun j => depositsFor (penv j) j)).flatten ++
          (depositsFor (penv i) i ++ fs),
        (if cleanSuccess (penv i) then 1 else 0) +
          (rest.filter (fun j => cleanSuccess (penv j))).length) = _
    simp only [Prod.mk.injEq]
    constructor
    · rw [List.reverse_cons, List.map_append, List.flatten_append]
      simp [List.append_assoc]
    · rw [List.filter_cons]
      cases hcs : cleanSuccess (penv i) with
      | true => simp [Nat.add_comm]
      | false => simp

/-- Result of the `try` body of `convert_djvu_to_cbz` (lines 101–139):
`ok b` = the body ran to a `return b`; `exn` = it raised. -/
inductive Outcome
  | ok : Bool → Outcome
  | exn : Outcome
deriving DecidableEq

/-- Environment of one `convert_djvu_to_cbz` call: behaviour of the page
counting tools, of the two rendering runs for each page index, and of the
zip archiving step.  `get_page_count` and `extract_page` never raise (each
catches its own exceptions), so the archiving block (lines 124–132) is the
one fallible operation inside the `try`; `zipRaises` makes it raise, and
`partialArchive` is whatever content the interrupted write left at the
destination path. -/
structure ConvertEnv where
  countEnv : CountEnv
  pageEnv : Nat → ExtractEnv
  zipRaises : Bool
  partialArchive : Option (List String)

/-- Model of `f.endswith('.png')` (line 126). -/
def endsPng (p : String) : Bool := ".png".data.isSuffixOf p.data

/-- The page count obtained at line 103. -/
def convertPageCount (env : ConvertEnv) : Nat := get_page_count env.countEnv

/-- Scratch filesystem and `successful_pages` after the loop of
lines 107–116: pages `1..num_pages` against an initially empty scratch
directory. -/
def convertScratch (env : ConvertEnv) : List String × Nat :=
  extractPages env.pageEnv (List.range' 1 (convertPageCount env)) []

/-- The final `successful_pages` counter (lines 107–114). -/
def convertExtractedCount (env : ConvertEnv) : Nat := (convertScratch env).2

/-- The `try` body (lines 101–139): count pages, run the extraction loop,
return `False` if no page succeeded (line 120), else archive the `.png`
files of the scratch directory in sorted name order at the destination
(lines 124–132, overwriting `pre`, the prior content at that path) and
return `True`.  Yields the outcome, the scratch contents, and the archive
state at the destination. -/
def convertBody (env : ConvertEnv) (pre : Option (List String)) :
    Outcome × List String × Option (List String) :=
  match convertScratch env with
  | (fs, k) =>
    if k == 0 then (Outcome.ok false, fs, pre)
    else if env.zipRaises then (Outcome.exn, fs, env.partialArchive)
    else (Outcome.ok true, fs,
      some (List.insertionSort strLeP (fs.filter endsPng)))

/-- Observable result of `convert_djvu_to_cbz`: the returned boolean,
whether the scratch directory still exists after the call, and the archive
state at the destination path. -/
structure ConvResult where
  ok : Bool
  scratchExists : Bool
  archive : Option (List String)
deriving DecidableEq

/-- Model of `convert_djvu_to_cbz` (lines 86–143): run the `try` body; an exception
is caught and turned into a `False` return (lines 137–139); the `finally`
clause removes the scratch directory on every path (lines 140–143). -/
def convert_djvu_to_cbz (env : ConvertEnv) (pre : Option (List String)) :
    ConvResult :=
  match convertBody env pre with
  | (Outcome.ok b, _, ar) => ⟨b, false, ar⟩
  | (Outcome.exn, _, ar) => ⟨false, false, ar⟩

theorem convertBody_eq (env : ConvertEnv) (pre : Option (List String)) :
    convertBody env pre =
      (if (convertScratch env).2 == 0 then
        (Outcome.ok false, (convertScratch env).1, pre)
      else if env.zipRaises then
        (Outcome.exn, (convertScratch env).1, env.partialArchive)
      else (Outcome.ok true, (convertScratch env).1,
        some (List.insertionSort strLeP
          ((convertScratch env).1.filter endsPng)))) := by
  unfold convertBody
  cases hsk : convertScratch env with
  | mk fs k => rfl

/-- Claim C2 (confirmed): on every exit path of `convert_djvu_to_cbz` —
the zero-pages early return, the archive-written success path, and the
exception path out of the archiving step — the scratch temporary directory
created at the start of the invocation is removed before the invocation
returns, because the `finally` clause runs on all of them. -/
theorem convert_scratch_always_removed (env : ConvertEnv)
    (pre : Option (List String)) :
    (convert_djvu_to_cbz env pre).scratchExists = false := by
  unfold convert_djvu_to_cbz
  rcases convertBody env pre with ⟨o, fs, ar⟩
  cases o <;> rfl

/-- Claim C3 (confirmed): when zero pages were successfully extracted,
`convert_djvu_to_cbz` returns `False` and skips archive creation entirely:
whatever was at the destination path before the call (in particular,
nothing) is still there after it. -/
theorem convert_zero_pages_skips_archive (env : ConvertEnv)
    (pre : Option (List String)) (h : convertExtractedCount env = 0) :
    (convert_djvu_to_cbz env pre).ok = false ∧
    (convert_djvu_to_cbz env pre).archive = pre := by
  have hk : ((convertScratch env).2 == 0) = true := by
    unfold convertExtractedCount at h
    simp [h]
  have hb : convertBody env pre = (Outcome.ok false, (convertScratch env).1, pre) := by
    rw [convertBody_eq, if_pos hk]
  unfold convert_djvu_to_cbz
  rw [hb]
  exact ⟨rfl, rfl⟩

/-- Concrete environment for the claim C3 witness: the document reports 2
pages and every rendering run fails without leaving a file. -/
def cenvAllFail : ConvertEnv :=
  ⟨⟨some ⟨0, "2"⟩, none⟩, fun _ => ⟨⟨1, false⟩, ⟨1, false⟩⟩, false, none⟩

/-- Claim C3 witness: with every page failing, the call returns `False`
and no archive appears at the (initially empty) destination. -/
theorem convert_zero_pages_skips_archive_witness :
    (convert_djvu_to_cbz cenvAllFail none).ok = false ∧
    (convert_djvu_to_cbz cenvAllFail none).archive = none :=
  convert_zero_pages_skips_archive cenvAllFail none (by decide)

/-- Claim C8 (confirmed): a fault raised inside the `try` body of
`convert_djvu_to_cbz` (page counting and extraction catch their own
exceptions; the archiving step can raise) is caught at the document level
and converted into a `False` return, and a normally-returning body has its
value returned unchanged — no exception propagates out of
`convert_djvu_to_cbz`, whose results are exhausted by these two cases. -/
theorem convert_catches_faults (env : ConvertEnv)
    (pre : Option (List String)) :
    ((convertBody env pre).1 = Outcome.exn →
      (convert_djvu_to_cbz env pre).ok = false) ∧
    (∀ b, (convertBody env pre).1 = Outcome.ok b →
      (convert_djvu_to_cbz env pre).ok = b) := by
  unfold convert_djvu_to_cbz
  cases hb : convertBody env pre with
  | mk o far =>
    obtain ⟨fs, ar⟩ := far
    cases o with
    | ok b =>
      refine ⟨fun hc => absurd hc (by simp), fun b2 hb2 => ?_⟩
      have hbb : b = b2 := by simpa using hb2
      exact hbb
    | exn =>
      exact ⟨fun _ => rfl, fun b2 hb2 => absurd hb2 (by simp)⟩

/-- Concrete environment for the claim C8 witness: one page extracts
successfully but the zip step raises. -/
def cenvZipRaises : ConvertEnv :=
  ⟨⟨some ⟨0, "1"⟩, none⟩, fun _ => ⟨⟨0, true⟩, ⟨1, false⟩⟩, true, some []⟩

/-- Claim C8 witness: the archiving fault is converted into a `False`
return. -/
theorem convert_catches_faults_witness :
    (convert_djvu_to_cbz cenvZipRaises none).ok = false :=
  (convert_catches_faults cenvZipRaises none).1 (by decide)

/-! ### Lexical order of zero-padded page names

Page counts up to 9999 produce names of a fixed 4-digit width, on which
lexical filename order coincides with page-index order. -/

theorem natDigits_len1 (n : Nat) (h : n < 10) :
    natDigits n = [Nat.digitChar n] := by
  rw [natDigits_unfold, if_pos h]

theorem natDigits_len2 (n : Nat) (h1 : 10 ≤ n) (h2 : n < 100) :
    natDigits n = [Nat.digitChar (n / 10), Nat.digitChar (n % 10)] := by
  rw [natDigits_unfold, if_neg (by omega), natDigits_len1 (n / 10) (by omega)]
  rfl

theorem natDigits_len3 (n : Nat) (h1 : 100 ≤ n) (h2 : n < 1000) :
    natDigits n = [Nat.digitChar (n / 100), Nat.digitChar (n / 10 % 10),
      Nat.digitChar (n % 10)] := by
  rw [natDigits_unfold, if_neg (by omega),
    natDigits_len2 (n / 10) (by omega) (by omega)]
  have e1 : n / 10 / 10 = n / 100 := by omega
  rw [e1]
  rfl

theorem natDigits_len4 (n : Nat) (h1 : 1000 ≤ n) (h2 : n < 10000) :
    natDigits n = [Nat.digitChar (n / 1000), Nat.digitChar (n / 100 % 10),
      Nat.digitChar (n / 10 % 10), Nat.digitChar (n % 10)] := by
  rw [natDigits_unfold, if_neg (by omega),
    natDigits_len3 (n / 10) (by omega) (by omega)]
  have e1 : n / 10 / 100 = n / 1000 := by omega
  have e2 : n / 10 / 10 % 10 = n / 100 % 10 := by omega
  rw [e1, e2]
  rfl

theorem pad4_eq_digits (n : Nat) (h : n < 10000) :
    pad4 n = [Nat.digitChar (n / 1000), Nat.digitChar (n / 100 % 10),
      Nat.digitChar (n / 10 % 10), Nat.digitChar (n % 10)] := by
  unfold pad4
  by_cases h1 : n < 10
  · rw [natDigits_len1 n h1]
    have e0 : n / 1000 = 0 := by omega
    have e1 : n / 100 % 10 = 0 := by omega
    have e2 : n / 10 % 10 = 0 := by omega
    have e3 : n % 10 = n := by omega
    rw [e0, e1, e2, e3]
    rfl
  · by_cases h2 : n < 100
    · rw [natDigits_len2 n (by omega) h2]
      have e0 : n / 1000 = 0 := by omega
      have e1 : n / 100 % 10 = 0 := by omega
      have e2 : n / 10 % 10 = n / 10 := by omega
      rw [e0, e1, e2]
      rfl
    · by_cases h3 : n < 1000
      · rw [natDigits_len3 n (by omega) h3]
        have e0 : n / 1000 = 0 := by omega
        have e1 : n / 100 % 10 = n / 100 := by omega
        rw [e0, e1]
        rfl
      · rw [natDigits_len4 n (by omega) h]
        rfl

theorem digitChar_inj10 :
    ∀ x, x < 10 → ∀ y, y < 10 →
      (Nat.digitChar x = Nat.digitChar y ↔ x = y) := by decide

theorem digitChar_toNat_lt :
    ∀ x, x < 10 → ∀ y, y < 10 →
      ((Nat.digitChar x).toNat < (Nat.digitChar y).toNat ↔ x < y) := by decide

theorem pad4_lexLe (i j : Nat) (hij : i < j) (hj : j < 10000) :
    lexLe (pad4 i) (pad4 j) = true := by
  have hi : i < 10000 := by omega
  rw [pad4_eq_digits i hi, pad4_eq_digits j hj]
  by_cases e1 : i / 1000 = j / 1000
  · by_cases e2 : i / 100 % 10 = j / 100 % 10
    · by_cases e3 : i / 10 % 10 = j / 10 % 10
      · have e4 : i % 10 < j % 10 := by omega
        have hne : Nat.digitChar (i % 10) ≠ Nat.digitChar (j % 10) := by
          intro hcc
          have := (digitChar_inj10 (i % 10) (by omega) (j % 10) (by omega)).1 hcc
          omega
        simp only [lexLe,
          if_pos ((digitChar_inj10 (i / 1000) (by omega) (j / 1000) (by omega)).2 e1),
          if_pos ((digitChar_inj10 (i / 100 % 10) (by omega) (j / 100 % 10) (by omega)).2 e2),
          if_pos ((digitChar_inj10 (i / 10 % 10) (by omega) (j / 10 % 10) (by omega)).2 e3),
          if_neg hne, decide_eq_true_eq]
        exact (digitChar_toNat_lt (i % 10) (by omega) (j % 10) (by omega)).2 e4
      · have e4 : i / 10 % 10 < j / 10 % 10 := by omega
        have hne : Nat.digitChar (i / 10 % 10) ≠ Nat.digitChar (j / 10 % 10) := by
          intro hcc
          have := (digitChar_inj10 (i / 10 % 10) (by omega) (j / 10 % 10) (by omega)).1 hcc
          omega
        simp only [lexLe,
          if_pos ((digitChar_inj10 (i / 1000) (by omega) (j / 1000) (by omega)).2 e1),
          if_pos ((digitChar_inj10 (i / 100 % 10) (by omega) (j / 100 % 10) (by omega)).2 e2),
          if_neg hne, decide_eq_true_eq]
        exact (digitChar_toNat_lt (i / 10 % 10) (by omega) (j / 10 % 10) (by omega)).2 e4
    · have e4 : i / 100 % 10 < j / 100 % 10 := by omega
      have hne : Nat.digitChar (i / 100 % 10) ≠ Nat.digitChar (j / 100 % 10) := by
        intro hcc
        have := (digitChar_inj10 (i / 100 % 10) (by omega) (j / 100 % 10) (by omega)).1 hcc
        omega
      simp only [lexLe,
        if_pos ((digitChar_inj10 (i / 1000) (by omega) (j / 1000) (by omega)).2 e1),
        if_neg hne, decide_eq_true_eq]
      exact (digitChar_toNat_lt (i / 100 % 10) (by omega) (j / 100 % 10) (by omega)).2 e4
  · have e4 : i / 1000 < j / 1000 := by omega
    have hne : Nat.digitChar (i / 1000) ≠ Nat.digitChar (j / 1000) := by
      intro hcc
      have := (digitChar_inj10 (i / 1000) (by omega) (j / 1000) (by omega)).1 hcc
      omega
    simp only [lexLe, if_neg hne, decide_eq_true_eq]
    exact (digitChar_toNat_lt (i / 1000) (by omega) (j / 1000) (by omega)).2 e4

theorem lexLe_append_left (p : List Char) :
    ∀ a b, lexLe (p ++ a) (p ++ b) = lexLe a b := by
  induction p with
  | nil => intro a b; rfl
  | cons c p ih =>
    intro a b
    show lexLe (c :: (p ++ a)) (c :: (p ++ b)) = lexLe a b
    simp [lexLe, ih]

theorem lexLe_append_of_lt :
    ∀ a b : List Char, a.length = b.length → a ≠ b → lexLe a b = true →
      ∀ s t, lexLe (a ++ s) (b ++ t) = true := by
  intro a
  induction a with
  | nil =>
    intro b hlen hne _
    have hb : b = [] := List.eq_nil_of_length_eq_zero hlen.symm
    exact absurd hb.symm hne
  | cons c a2 ih =>
    intro b hlen hne hle s t
    cases b with
    | nil => simp at hlen
    | cons d b2 =>
      by_cases hcd : c = d
      · subst hcd
        have hle2 : lexLe a2 b2 = true := by simpa [lexLe] using hle
        have hne2 : a2 ≠ b2 := by
          intro h
          rw [h] at hne
          exact hne rfl
        show lexLe (c :: (a2 ++ s)) (c :: (b2 ++ t)) = true
        simpa [lexLe] using ih b2 (by simpa using hlen) hne2 hle2 s t
      · show lexLe (c :: (a2 ++ s)) (d :: (b2 ++ t)) = true
        have hle2 : decide (c.toNat < d.toNat) = true := by
          simpa [lexLe, hcd] using hle
        simpa [lexLe, hcd] using hle2

theorem pad4_length (n : Nat) (h : n < 10000) : (pad4 n).length = 4 := by
  rw [pad4_eq_digits n h]
  rfl

theorem strLe_pageName (i j : Nat) (hij : i < j) (hj : j < 10000) :
    strLe (pageName i) (pageName j) = true := by
  show lexLe (pageNameL i) (pageNameL j) = true
  unfold pageNameL
  rw [List.append_assoc, List.append_assoc, lexLe_append_left]
  exact lexLe_append_of_lt (pad4 i) (pad4 j)
    (by rw [pad4_length i (by omega), pad4_length j hj])
    (fun h => absurd (pad4_inj h) (by omega))
    (pad4_lexLe i j hij hj) _ _

/-! ### Which scratch files the zip step picks up -/

theorem isSuffixOf_iff_sfx {l1 l2 : List Char} :
    l1.isSuffixOf l2 = true ↔ l1 <:+ l2 := by
  rw [List.isSuffixOf, List.isPrefixOf_iff_prefix, List.reverse_prefix]

theorem endsPng_pageName (i : Nat) : endsPng (pageName i) = true := by
  rw [endsPng, isSuffixOf_iff_sfx]
  exact ⟨"page_".data ++ pad4 i, rfl⟩

theorem endsPng_tiffName (i : Nat) : endsPng (tiffName i) = false := by
  rw [← Bool.not_eq_true, endsPng, isSuffixOf_iff_sfx]
  rintro ⟨t, ht⟩
  have hg : (t ++ ".png".data).getLast? = some 'g' := by
    rw [List.getLast?_append]
    rfl
  rw [ht] at hg
  rw [show (tiffName i).data = tiffNameL i from rfl, tiffNameL_getLast] at hg
  exact absurd hg (by decide)

theorem filter_endsPng_depositsFor (e : ExtractEnv) (i : Nat) :
    (depositsFor e i).filter endsPng =
      if cleanSuccess e then [pageName i] else [] := by
  unfold depositsFor
  by_cases h : cleanSuccess e = true
  · rw [if_pos h, if_pos h, List.filter_cons_of_pos (endsPng_pageName i)]
    rfl
  · rw [if_neg h, if_neg h]
    by_cases h2 : e.runTiff.creates = true
    · rw [if_pos h2, List.filter_cons_of_neg (by rw [endsPng_tiffName]; simp)]
      rfl
    · rw [if_neg h2]
      rfl

theorem flatten_ite_singletons (f : Nat → String) (p : Nat → Bool) :
    ∀ l : List Nat,
      (l.map (fun i => if p i then [f i] else [])).flatten = (l.filter p).map f := by
  intro l
  induction l with
  | nil => rfl
  | cons i rest ih =>
    simp only [List.map_cons, List.flatten_cons, List.filter_cons]
    by_cases h : p i = true
    · rw [if_pos h, if_pos h, ih]
      rfl
    · rw [if_neg h, if_neg h, ih]
      rfl

/-! ### Claim C1 -/

/-- The page indices whose extraction succeeds against a fresh scratch
directory (under clean primary-tool behaviour), in ascending order. -/
def succIndices (env : ConvertEnv) : List Nat :=
  (List.range' 1 (convertPageCount env)).filter
    (fun i => cleanSuccess (env.pageEnv i))

/-- Concrete environment refuting claim C1: the document reports 2 pages;
page 1's primary run writes `page_0001.png` but exits 1 and its fallback
fails, so `extract_page` reports failure while the file stays in the
scratch directory; page 2 extracts normally. -/
def cenvDeposit : ConvertEnv :=
  ⟨⟨some ⟨0, "2"⟩, none⟩,
   fun i => if i = 1 then ⟨⟨1, true⟩, ⟨1, false⟩⟩ else ⟨⟨0, true⟩, ⟨1, false⟩⟩,
   false, none⟩

/-- Claim C1 (corrected), counterexample: exactly `k = 1` of 2 pages is
successfully extracted, yet the archive holds 2 entries (the failed page's
stray file is zipped too), refuting "the output archive contains exactly
`k` entries". -/
theorem convert_archive_entries_cex :
    convertExtractedCount cenvDeposit = 1 ∧
    (convert_djvu_to_cbz cenvDeposit none).ok = true ∧
    (convert_djvu_to_cbz cenvDeposit none).archive =
      some [pageName 1, pageName 2] := by decide

/-- Claim C1 (amended): assume additionally that the primary rendering run
never leaves its output file behind when it exits non-zero, and that the
page count is at most 9999 (so the 4-digit zero padding keeps lexical and
numeric order aligned).  Then whenever `k ≠ 0` pages succeed and the
archiving step does not raise, `convert_djvu_to_cbz` returns `True` and
the archive contains exactly the `k` successfully extracted pages, in
ascending page-index order (`succIndices env` is ascending by
construction). -/
theorem convert_archive_entries_amended (env : ConvertEnv)
    (pre : Option (List String))
    (hclean : ∀ i ∈ List.range' 1 (convertPageCount env),
      (env.pageEnv i).runPng.creates = true → (env.pageEnv i).runPng.rc = 0)
    (hn : convertPageCount env ≤ 9999)
    (hk : convertExtractedCount env ≠ 0)
    (hz : env.zipRaises = false) :
    (convert_djvu_to_cbz env pre).ok = true ∧
    (convert_djvu_to_cbz env pre).archive =
      some ((succIndices env).map pageName) ∧
    ((succIndices env).map pageName).length = convertExtractedCount env := by
  have hcs : convertScratch env =
      (((List.range' 1 (convertPageCount env)).reverse.map
          (fun i => depositsFor (env.pageEnv i) i)).flatten ++ [],
        ((List.range' 1 (convertPageCount env)).filter
          (fun i => cleanSuccess (env.pageEnv i))).length) :=
    extractPages_clean env.pageEnv (List.range' 1 (convertPageCount env)) []
      hclean (fun i _ => ⟨List.not_mem_nil _, List.not_mem_nil _⟩)
      (List.nodup_range' 1 (convertPageCount env))
  have hkval : convertExtractedCount env = (succIndices env).length := by
    unfold convertExtractedCount
    rw [hcs]
    rfl
  have hpngs : (convertScratch env).1.filter endsPng =
      ((succIndices env).map pageName).reverse := by
    rw [hcs]
    show (((List.range' 1 (convertPageCount env)).reverse.map
        (fun i => depositsFor (env.pageEnv i) i)).flatten ++ []).filter endsPng
      = ((succIndices env).map pageName).reverse
    rw [List.append_nil, List.filter_flatten, List.map_map]
    have hcomp : (List.filter endsPng ∘
        fun i => depositsFor (env.pageEnv i) i) =
        fun i => if cleanSuccess (env.pageEnv i) then [pageName i] else [] := by
      funext i
      exact filter_endsPng_depositsFor (env.pageEnv i) i
    rw [hcomp, flatten_ite_singletons pageName
      (fun i => cleanSuccess (env.pageEnv i)), List.filter_reverse,
      List.map_reverse]
    rfl
  have hbound : ∀ x ∈ succIndices env, x < 10000 := by
    intro x hx
    have hx2 := List.mem_filter.1 hx
    have := List.mem_range'_1.1 hx2.1
    omega
  have hsorted : List.Sorted strLeP ((succIndices env).map pageName) := by
    have hpw : (succIndices env).Pairwise (· < ·) :=
      (List.pairwise_lt_range' 1 (convertPageCount env)).filter _
    refine List.pairwise_map.2 (hpw.imp_of_mem ?_)
    intro a b ha hb hab
    exact strLe_pageName a b hab (hbound b hb)
  have hsort_eq : List.insertionSort strLeP
      (((succIndices env).map pageName).reverse) =
      (succIndices env).map pageName :=
    List.eq_of_perm_of_sorted
      ((List.perm_insertionSort strLeP _).trans (List.reverse_perm _))
      (List.sorted_insertionSort strLeP _) hsorted
  have hk2 : ((convertScratch env).2 == 0) = false := by
    simp only [beq_eq_false_iff_ne, ne_eq]
    exact hk
  have hbody : convertBody env pre =
      (Outcome.ok true, (convertScratch env).1,
        some (List.insertionSort strLeP
          ((convertScratch env).1.filter endsPng))) := by
    rw [convertBody_eq, if_neg (by rw [hk2]; exact Bool.false_ne_true), hz,
      if_neg Bool.false_ne_true]
  have hfinal : (convert_djvu_to_cbz env pre) =
      ⟨true, false, some (List.insertionSort strLeP
        ((convertScratch env).1.filter endsPng))⟩ := by
    unfold convert_djvu_to_cbz
    rw [hbody]
  rw [hfinal]
  refine ⟨rfl, ?_, ?_⟩
  · show some (List.insertionSort strLeP
        ((convertScratch env).1.filter endsPng)) = _
    rw [hpngs, hsort_eq]
  · rw [List.length_map, hkval]

/-- Concrete environment for the claim C1 witness: 2 reported pages,
page 1 fails cleanly (no file left), page 2 succeeds. -/
def cenvOnePage : ConvertEnv :=
  ⟨⟨some ⟨0, "2"⟩, none⟩,
   fun i => if i = 1 then ⟨⟨1, false⟩, ⟨1, false⟩⟩ else ⟨⟨0, true⟩, ⟨1, false⟩⟩,
   false, none⟩

/-- Claim C1 witness: the archive holds exactly the one successful page. -/
theorem convert_archive_entries_amended_witness :
    (convert_djvu_to_cbz cenvOnePage none).ok = true ∧
    (convert_djvu_to_cbz cenvOnePage none).archive =
      some ((succIndices cenvOnePage).map pageName) ∧
    ((succIndices cenvOnePage).map pageName).length =
      convertExtractedCount cenvOnePage :=
  convert_archive_entries_amended cenvOnePage none (by decide) (by decide)
    (by decide) rfl

/-! ## Batch Orchestrator (`process_folder`, src/djvu_convert.py lines 145–232)

Paths are modelled as lists of path components.  The walk of the input
tree is modelled by the list of files it yields, each as a directory path
relative to the input root plus a filename (`os.path.relpath(root,
input_folder)` for a top-level file is `"."`, which `os.path.join`
interpolates as a no-op component; the component-list model normalizes it
away).  Conversion jobs themselves are claim C1–C8 territory;
`process_folder` is modelled up to the point where jobs are dispatched. -/

/-- Python `str.lower()` (ASCII range). -/
def pyLower (s : String) : String := ⟨s.data.map Char.toLower⟩

/-- Model of `file.lower().endswith(('.djvu', '.djv'))` (line 180). -/
def isDjvuName (name : String) : Bool :=
  ".djvu".data.isSuffixOf (pyLower name).data ||
  ".djv".data.isSuffixOf (pyLower name).data

/-- Model of `os.path.splitext(name)[0]` for a bare filename: cut at the last dot,
unless every character before that dot is itself a dot (then nothing is
cut, e.g. `".djvu"` keeps its name). -/
def pySplitextStem (name : String) : String :=
  if name.data.contains '.' then
    if ((name.data.reverse.drop
        ((name.data.reverse.takeWhile (fun c => c != '.')).length + 1)).reverse).all
        (fun c => c == '.') then
      name
    else
      ⟨(name.data.reverse.drop
        ((name.data.reverse.takeWhile (fun c => c != '.')).length + 1)).reverse⟩
  else name

/-- One discovered source document: its directory path relative to the
input root, as path components, and its filename. -/
structure SrcFile where
  dir : List String
  name : String
deriving DecidableEq

/-- The destination archive path computed at lines 184–190, as components
under the output root:
`os.path.join(output_folder, rel_path, os.path.splitext(file)[0] + '.cbz')`. -/
def outputPath (outRoot : List String) (f : SrcFile) : List String :=
  outRoot ++ f.dir ++ [⟨(pySplitextStem f.name).data ++ ".cbz".data⟩]

/-- The source path of a discovered file (line 182). -/
def srcPath (inRoot : List String) (f : SrcFile) : List String :=
  inRoot ++ f.dir ++ [f.name]

/-- Environment of one `process_folder` call: whether the input folder
exists, what the directory walk yields, and whether the `ddjvu`
executable is present at its configured location. -/
structure FolderEnv where
  inputExists : Bool
  walkFiles : List SrcFile
  ddjvuExists : Bool

/-- Observable result of `process_folder`: which output subdirectories
were created (or confirmed) during discovery, the conversion jobs
computed, and whether conversion was dispatched at all. -/
structure FolderResult where
  dirsEnsured : List (List String)
  jobs : List (List String × List String)
  attempted : Bool
deriving DecidableEq

/-- The files the walk yields whose lowercased name ends in `.djvu` or
`.djv` (lines 178–191). -/
def discoveredSrcs (env : FolderEnv) : List SrcFile :=
  env.walkFiles.filter (fun f => isDjvuName f.name)

/-- Model of `process_folder` (lines 145–232): bail out if the input folder is
missing (line 162); during discovery create each source's mirrored output
subdirectory and record its job (lines 178–191); bail out on an empty job
list (line 193) or a missing `ddjvu` executable (line 200); otherwise
dispatch the jobs. -/
def process_folder (env : FolderEnv) (inRoot outRoot : List String) :
    FolderResult :=
  if env.inputExists = false then ⟨[], [], false⟩
  else if (discoveredSrcs env).isEmpty then
    ⟨(discoveredSrcs env).map (fun f => outRoot ++ f.dir),
     (discoveredSrcs env).map (fun f => (srcPath inRoot f, outputPath outRoot f)),
     false⟩
  else if env.ddjvuExists = false then
    ⟨(discoveredSrcs env).map (fun f => outRoot ++ f.dir),
     (discoveredSrcs env).map (fun f => (srcPath inRoot f, outputPath outRoot f)),
     false⟩
  else
    ⟨(discoveredSrcs env).map (fun f => outRoot ++ f.dir),
     (discoveredSrcs env).map (fun f => (srcPath inRoot f, outputPath outRoot f)),
     true⟩

/-- Claim C9 (corrected), counterexample: `doc.djvu` and `doc.djv` are
distinct discoverable inputs in the same directory, yet both map to the
destination `doc.cbz` — refuting "no two jobs in one run share a
destination path". -/
theorem outputPath_distinct_cex :
    isDjvuName "doc.djvu" = true ∧ isDjvuName "doc.djv" = true ∧
    ("doc.djvu" : String) ≠ "doc.djv" ∧
    outputPath [] ⟨[], "doc.djvu"⟩ = outputPath [] ⟨[], "doc.djv"⟩ := by
  decide

/-- Claim C9 (amended): a source at relative path `a/b/doc.ext` maps to
`<output_root>/a/b/doc.cbz`, and two discovered inputs get distinct
destination paths provided they differ in directory or in filename stem —
the stem condition is necessary, since `doc.djvu` and `doc.djv` in one
directory collide on `doc.cbz`. -/
theorem outputPath_mapping_inj (outRoot : List String) (f g : SrcFile)
    (hf : isDjvuName f.name = true) (hg : isDjvuName g.name = true)
    (hne : f.dir ≠ g.dir ∨ pySplitextStem f.name ≠ pySplitextStem g.name) :
    outputPath outRoot f =
      outRoot ++ f.dir ++ [⟨(pySplitextStem f.name).data ++ ".cbz".data⟩] ∧
    outputPath outRoot f ≠ outputPath outRoot g := by
  refine ⟨rfl, ?_⟩
  intro h
  unfold outputPath at h
  rw [List.append_assoc outRoot, List.append_assoc outRoot] at h
  have h2 := List.append_cancel_left h
  have h3 := congrArg List.reverse h2
  rw [List.reverse_append, List.reverse_append] at h3
  simp only [List.reverse_cons, List.reverse_nil, List.nil_append] at h3
  injection h3 with hh ht
  rcases hne with hd | hs
  · exact hd (List.reverse_injective ht)
  · apply hs
    have hdata : (pySplitextStem f.name).data ++ ".cbz".data =
        (pySplitextStem g.name).data ++ ".cbz".data := congrArg String.data hh
    exact congrArg String.mk (List.append_cancel_right hdata)

/-- Claim C9 witness: two same-directory sources with different stems get
distinct destinations, at the mapped paths. -/
theorem outputPath_mapping_inj_witness :
    outputPath ["o"] ⟨["a"], "x.djvu"⟩ =
      ["o"] ++ ["a"] ++ [⟨(pySplitextStem "x.djvu").data ++ ".cbz".data⟩] ∧
    outputPath ["o"] ⟨["a"], "x.djvu"⟩ ≠ outputPath ["o"] ⟨["a"], "y.djvu"⟩ :=
  outputPath_mapping_inj ["o"] ⟨["a"], "x.djvu"⟩ ⟨["a"], "y.djvu"⟩
    (by decide) (by decide) (Or.inr (by decide))

/-- Claim C10 (confirmed): when the input folder exists but the `ddjvu`
executable is absent, `process_folder` returns without dispatching any
conversion, yet the mirrored output subdirectory of every discovered
source document was already created during discovery, before the
executable check runs. -/
theorem process_folder_missing_exe (env : FolderEnv)
    (inRoot outRoot : List String)
    (hin : env.inputExists = true) (hdd : env.ddjvuExists = false) :
    (process_folder env inRoot outRoot).attempted = false ∧
    ∀ f ∈ env.walkFiles, isDjvuName f.name = true →
      (outRoot ++ f.dir) ∈ (process_folder env inRoot outRoot).dirsEnsured := by
  unfold process_folder
  rw [if_neg (by simp [hin])]
  by_cases hs : (discoveredSrcs env).isEmpty
  · rw [if_pos hs]
    refine ⟨rfl, ?_⟩
    intro f hf hdj
    have hmem : f ∈ discoveredSrcs env := List.mem_filter.2 ⟨hf, hdj⟩
    rw [List.isEmpty_iff.1 hs] at hmem
    simp at hmem
  · rw [if_neg hs, if_pos hdd]
    refine ⟨rfl, ?_⟩
    intro f hf hdj
    exact List.mem_map.2 ⟨f, List.mem_filter.2 ⟨hf, hdj⟩, rfl⟩

/-- Concrete environment for the claim C10 witness. -/
def fenvNoExe : FolderEnv := ⟨true, [⟨["a"], "doc.djvu"⟩], false⟩

/-- Claim C10 witness: with `ddjvu` missing, no conversion is attempted
but `out/a` was created for the discovered `a/doc.djvu`. -/
theorem process_folder_missing_exe_witness :
    (process_folder fenvNoExe ["in"] ["out"]).attempted = false ∧
    (["out", "a"] : List (String)) ∈
      (process_folder fenvNoExe ["in"] ["out"]).dirsEnsured :=
  ⟨(process_folder_missing_exe fenvNoExe ["in"] ["out"] rfl rfl).1,
   (process_folder_missing_exe fenvNoExe ["in"] ["out"] rfl rfl).2
     ⟨["a"], "doc.djvu"⟩ (by decide) (by decide)⟩

end DjvuCbz
